import Mathlib

/-!
Shallow embedding of the RevealSlidingDirective
(src/src/directives/reveal-sliding.directive.ts) from the SlidingItems
repository, together with theorems checking the natural-language
specification against it.

The directive emulates a swipe gesture on an ion-item-sliding container:
a click on a marked trigger element starts a recursive, timer-driven
sequence of five synthetic input events (touch-based when the platform
exposes the Touch and TouchEvent constructors, mouse-based otherwise).

Modelling conventions:
 * DOM coordinates are rationals (getBoundingClientRect returns fractional
   screen coordinates; all arithmetic performed on them here is exact).
 * The browser environment observable at each step (bounding box, clock,
   whether the platform event API throws) is a function `StepEnv` of the
   step index, since the source re-reads the box at every step.
 * The mutable fields of the directive instance (`swipeDirection`,
   `revealButton`) form an explicit state `MutState` threaded through the
   translation of every method, so that frame properties (what a method
   does NOT write) are provable rather than assumed.
 * Thrown JS exceptions become `Except String`; the unbounded recursion of
   `sendEvents` becomes fuelled recursion returning `Option`, where `none`
   marks the divergence that the source exhibits when started past
   `maxIterations` (it is never hit from the real entry point, index 0).
-/

namespace RevealSliding

/-- The enum `SwipeDirection` of the source. -/
inductive SwipeDirection where
  | toLeft
  | toRight
deriving DecidableEq, Repr

/-- The part of a DOMRect that `sendEventsDispatcher` reads:
`getBoundingClientRect()` fields `top`, `left`, `right`. -/
structure Rect where
  top : ℚ
  left : ℚ
  right : ℚ
deriving DecidableEq, Repr

/-- Platform capability record: whether the global constructors `Touch` and
`TouchEvent` are defined (`typeof Touch !== 'undefined'` etc.). -/
structure Platform where
  touchDefined : Bool
  touchEventDefined : Bool
deriving DecidableEq, Repr

/-- `supportTouchEvent()` of the source: both constructors must exist. -/
def supportTouchEvent (p : Platform) : Bool :=
  p.touchDefined && p.touchEventDefined

/-- A single contact point as constructed by `new Touch({...})` in
`sendTouchEvent`. -/
structure Touch where
  identifier : ℕ
  clientX : ℚ
  clientY : ℚ
  radiusX : ℚ
  radiusY : ℚ
  rotationAngle : ℚ
  force : ℚ
deriving DecidableEq, Repr

/-- The observable payload of a `new TouchEvent(eventType, {...})`. -/
structure TouchEventData where
  eventType : String
  cancelable : Bool
  bubbles : Bool
  touches : List Touch
  targetTouches : List Touch
  changedTouches : List Touch
  shiftKey : Bool
deriving DecidableEq, Repr

/-- The observable payload of the `initMouseEvent` call in `sendMouseEvent`. -/
structure MouseEventData where
  eventType : String
  bubbles : Bool
  cancelable : Bool
  clientX : ℚ
  clientY : ℚ
  ctrlKey : Bool
  altKey : Bool
  shiftKey : Bool
  metaKey : Bool
  button : ℕ
deriving DecidableEq, Repr

/-- A synthetic event dispatched at the container element. -/
inductive SyntheticEvent where
  | touch (data : TouchEventData)
  | mouse (data : MouseEventData)
deriving DecidableEq, Repr

/-- The event-type string carried by a synthetic event. -/
def SyntheticEvent.eventType : SyntheticEvent → String
  | .touch d => d.eventType
  | .mouse d => d.eventType

/-- Whether the event was built by the touch strategy. -/
def SyntheticEvent.isTouchKind : SyntheticEvent → Bool
  | .touch _ => true
  | .mouse _ => false

/-- The horizontal coordinate of the event: for a mouse event its own
`clientX`; for a touch event the `clientX` of its (single) contact point. -/
def SyntheticEvent.clientX : SyntheticEvent → ℚ
  | .touch d => ((d.changedTouches.head?).map Touch.clientX).getD 0
  | .mouse d => d.clientX

/-- The vertical coordinate of the event, symmetric to `clientX`. -/
def SyntheticEvent.clientY : SyntheticEvent → ℚ
  | .touch d => ((d.changedTouches.head?).map Touch.clientY).getD 0
  | .mouse d => d.clientY

/-- Result of one synthesis step: either an event was dispatched, or the
platform API threw inside the `try` of `sendTouchEvent` and the error was
only logged (`console.error`). -/
inductive StepOutcome where
  | dispatched (e : SyntheticEvent)
  | loggedError
deriving DecidableEq, Repr

/-- `sendTouchEvent(element, eventType, x, y)`. `apiThrows` models the
platform API throwing inside the `try` block (e.g. no real `Touch`
constructor); the `catch` only logs, so the function is total and never
propagates an error. `now` is the `Date.now()` value used as the contact
identifier. -/
def sendTouchEvent (apiThrows : Bool) (now : ℕ) (eventType : String)
    (x y : ℚ) : StepOutcome :=
  if apiThrows then
    StepOutcome.loggedError
  else
    let touch : Touch :=
      { identifier := now, clientX := x, clientY := y,
        radiusX := 2.5, radiusY := 2.5, rotationAngle := 10, force := 0.5 }
    let touchList : List Touch := [touch]
    StepOutcome.dispatched (SyntheticEvent.touch
      { eventType := eventType, cancelable := true, bubbles := true,
        touches := touchList, targetTouches := [],
        changedTouches := touchList, shiftKey := true })

/-- `sendMouseEvent(element, eventType, x, y)`: there is no try/catch, so a
platform failure propagates to the caller (`Except.error`). -/
def sendMouseEvent (apiThrows : Bool) (eventType : String)
    (x y : ℚ) : Except String StepOutcome :=
  if apiThrows then
    Except.error "MouseEvent synthesis failed"
  else
    Except.ok (StepOutcome.dispatched (SyntheticEvent.mouse
      { eventType := eventType, bubbles := true, cancelable := true,
        clientX := x, clientY := y,
        ctrlKey := false, altKey := false, shiftKey := false, metaKey := false,
        button := 0 }))

/-- The two mutable fields of the directive instance that the resolver
writes and the sequencer reads: the computed `swipeDirection` and whether
`revealButton` resolved to an element. -/
structure MutState where
  swipeDirection : SwipeDirection
  revealButton : Bool
deriving DecidableEq, Repr

/-- What the browser environment provides to one sequencer step: the
container bounding box read fresh by `getBoundingClientRect()`, the
`Date.now()` clock value, and whether the platform event API throws at
this step. -/
structure StepEnv where
  rect : Rect
  now : ℕ
  apiThrows : Bool

/-- The `mouseEvents` list of `sendEventsDispatcher`. -/
def mouseEvents : List String :=
  ["mousedown", "mouseup", "mousemove"]

/-- The `touchEvents` list of `sendEventsDispatcher`. -/
def touchEvents : List String :=
  ["touchstart", "touchend", "touchmove"]

/-- The `maxIterations` constant of `sendEvents`. -/
def maxIterations : ℕ := 5

/-- `sendEventsDispatcher(index, maxIterations)`: picks the event-type
triple and dispatcher by `supportTouchEvent()`, reads the bounding box,
computes the step coordinates from the stored `swipeDirection`, and
dispatches the start / end / move event according to the index. The method
writes none of the directive's fields, so the threaded state is returned
as received. -/
def sendEventsDispatcher (plat : Platform) (envAt : ℕ → StepEnv)
    (st : MutState) (index maxIter : ℕ) :
    Except String StepOutcome × MutState :=
  let eventTypes := if supportTouchEvent plat then touchEvents else mouseEvents
  let env := envAt index
  let rect := env.rect
  let xStep : ℚ := 50
  let yOffset : ℚ := 10
  let y : ℚ := rect.top + yOffset
  let x : ℚ :=
    if st.swipeDirection = SwipeDirection.toRight then
      rect.left + (index : ℚ) * xStep
    else
      rect.right - (index : ℚ) * xStep
  let dispatcher : String → Except String StepOutcome := fun ty =>
    if supportTouchEvent plat then
      Except.ok (sendTouchEvent env.apiThrows env.now ty x y)
    else
      sendMouseEvent env.apiThrows ty x y
  let result :=
    if index = 0 then
      dispatcher (eventTypes.getD 0 "")
    else if index = maxIter - 1 then
      dispatcher (eventTypes.getD 1 "")
    else
      dispatcher (eventTypes.getD 2 "")
  (result, st)

/-- Fuelled translation of the recursive `sendEvents(index)`. One unit of
fuel is one activation; `none` marks exhaustion, i.e. the divergence the
source would exhibit if the equality check `index === maxIterations` were
skipped over. An uncaught exception from a dispatcher (mouse strategy)
escapes the timer callback before the recursive call, aborting the chain:
modelled by propagating `Except.error`. -/
def sendEventsAux (plat : Platform) (envAt : ℕ → StepEnv) :
    ℕ → ℕ → MutState → Option (Except String (List StepOutcome) × MutState)
  | 0, _, _ => none
  | fuel + 1, index, st =>
    if index = maxIterations then
      some (Except.ok [], st)
    else
      match sendEventsDispatcher plat envAt st index maxIterations with
      | (Except.error e, st1) => some (Except.error e, st1)
      | (Except.ok outcome, st1) =>
        match sendEventsAux plat envAt fuel (index + 1) st1 with
        | none => none
        | some (Except.error e, st2) => some (Except.error e, st2)
        | some (Except.ok rest, st2) => some (Except.ok (outcome :: rest), st2)

/-- `sendEvents(index)`: the run from a given starting index. The fuel
`maxIterations + 1 - index` is exactly the number of activations the source
performs when `index ≤ maxIterations`; for `index > maxIterations` it is 0
and the result is `none`, matching the source's divergence there. -/
def sendEvents (plat : Platform) (envAt : ℕ → StepEnv) (index : ℕ)
    (st : MutState) : Option (Except String (List StepOutcome) × MutState) :=
  sendEventsAux plat envAt (maxIterations + 1 - index) index st

/-- One `ion-item-options` child as the directive sees it: its `side`
input property. -/
structure ItemOptions where
  side : String
deriving DecidableEq, Repr

/-- The projected content the directive resolves after view init:
whether the `ContentChild` query found an `ion-item-sliding`, the
`ContentChildren` list of `ion-item-options`, and whether the
`querySelector` for the `appRevealSlidingButton` marker finds an element. -/
structure DirectiveInput where
  itemSliding : Bool
  itemOptionsList : List ItemOptions
  revealButtonFound : Bool
deriving DecidableEq, Repr

/-- `selfCheck()`: throws when the `ion-item-sliding` node is missing,
otherwise warns about zero or more-than-one `ion-item-options` children.
Returns the list of emitted `console.warn` messages. -/
def selfCheck (inp : DirectiveInput) : Except String (List String) :=
  if !inp.itemSliding then
    Except.error "RevealSlidingDirective: Missing ion-item-sliding node"
  else
    Except.ok
      ((if inp.itemOptionsList.length > 1 then
          ["RevealSlidingDirective: Processing only a one ion-item-options element"]
        else []) ++
       (if inp.itemOptionsList.length = 0 then
          ["RevealSlidingDirective: Missing ion-item-options element"]
        else []))

/-- Result of `init()`: the field writes it performed, whether the click
listener was registered, and the warnings it logged. -/
structure InitResult where
  st : MutState
  listenerAttached : Bool
  warnings : List String
deriving DecidableEq, Repr

/-- `init()`: derives `swipeDirection` from the first `ion-item-options`
child's `side` (`start` ⇒ `toRight`, anything else or none ⇒ `toLeft`),
then resolves the reveal button; when the marker is missing it warns and
returns before registering the click listener. -/
def init (inp : DirectiveInput) : InitResult :=
  let itemOption := inp.itemOptionsList.head?
  let dir : SwipeDirection :=
    match itemOption with
    | some opt =>
      if opt.side = "start" then SwipeDirection.toRight else SwipeDirection.toLeft
    | none => SwipeDirection.toLeft
  if inp.revealButtonFound then
    { st := { swipeDirection := dir, revealButton := true },
      listenerAttached := true, warnings := [] }
  else
    { st := { swipeDirection := dir, revealButton := false },
      listenerAttached := false,
      warnings := ["RevealSlidingDirective: appRevealSlidingButton attribute is missed"] }

/-- `ngAfterViewInit()`: `selfCheck()` then `init()`. A throw in
`selfCheck` propagates and `init` never runs, so no listener is ever
registered. On success, returns the init result and the selfCheck
warnings. -/
def ngAfterViewInit (inp : DirectiveInput) :
    Except String (InitResult × List String) :=
  match selfCheck inp with
  | Except.error e => Except.error e
  | Except.ok warns => Except.ok (init inp, warns)

/-- A click on the would-be trigger element after setup: when the click
listener was registered by `init`, it starts `sendEvents(0)`; when setup
threw or left the attachment inert, no listener exists and the click
dispatches nothing. Returns the outcome list of the run the click causes. -/
def clickDispatch (inp : DirectiveInput) (plat : Platform)
    (envAt : ℕ → StepEnv) : Option (Except String (List StepOutcome)) :=
  match ngAfterViewInit inp with
  | Except.error _ => some (Except.ok [])
  | Except.ok (res, _) =>
    if res.listenerAttached then
      (sendEvents plat envAt 0 res.st).map Prod.fst
    else
      some (Except.ok [])

/-- The events actually dispatched among a list of step outcomes. -/
def dispatchedOf (outs : List StepOutcome) : List SyntheticEvent :=
  outs.filterMap fun o =>
    match o with
    | StepOutcome.dispatched e => some e
    | StepOutcome.loggedError => none

/-- The event-kind triple active for a platform: the `touchEvents` list when
touch is supported, else the `mouseEvents` list. -/
def activeEventTypes (plat : Platform) : List String :=
  if supportTouchEvent plat then touchEvents else mouseEvents

/-- Observer: the event-type strings of the events a run dispatched, in
dispatch order (`none` when the run diverged or aborted on an error). -/
def runKinds (r : Option (Except String (List StepOutcome) × MutState)) :
    Option (List String) :=
  match r with
  | some (Except.ok outs, _) => some ((dispatchedOf outs).map SyntheticEvent.eventType)
  | _ => none

/-- Observer: the horizontal coordinates of the dispatched events. -/
def runXs (r : Option (Except String (List StepOutcome) × MutState)) :
    Option (List ℚ) :=
  match r with
  | some (Except.ok outs, _) => some ((dispatchedOf outs).map SyntheticEvent.clientX)
  | _ => none

/-- Observer: the vertical coordinates of the dispatched events. -/
def runYs (r : Option (Except String (List StepOutcome) × MutState)) :
    Option (List ℚ) :=
  match r with
  | some (Except.ok outs, _) => some ((dispatchedOf outs).map SyntheticEvent.clientY)
  | _ => none

/-- Observer: how many sequencer steps of a run executed their dispatcher
(dispatched an event or logged a caught error). -/
def runOutcomeCount (r : Option (Except String (List StepOutcome) × MutState)) :
    Option ℕ :=
  match r with
  | some (Except.ok outs, _) => some outs.length
  | _ => none

/-- Observer: `true` when the run terminated normally (no uncaught
exception, no divergence). -/
def runCompletedOk (r : Option (Except String (List StepOutcome) × MutState)) :
    Bool :=
  match r with
  | some (Except.ok _, _) => true
  | _ => false

/-- The horizontal coordinate `sendEventsDispatcher` computes at step `i`. -/
def stepX (st : MutState) (envAt : ℕ → StepEnv) (i : ℕ) : ℚ :=
  if st.swipeDirection = SwipeDirection.toRight then
    (envAt i).rect.left + (i : ℚ) * 50
  else
    (envAt i).rect.right - (i : ℚ) * 50

/-- The vertical coordinate `sendEventsDispatcher` computes at step `i`. -/
def stepY (envAt : ℕ → StepEnv) (i : ℕ) : ℚ :=
  (envAt i).rect.top + 10

/-- The dispatch result of the single sequencer step at index `i`
(first component of `sendEventsDispatcher`, which performs no writes). -/
def stepResult (plat : Platform) (envAt : ℕ → StepEnv) (st : MutState)
    (i : ℕ) : Except String StepOutcome :=
  (sendEventsDispatcher plat envAt st i maxIterations).1

/-- Whether an `Except` result is a success. -/
def exceptOk (r : Except String StepOutcome) : Bool :=
  match r with
  | Except.ok _ => true
  | Except.error _ => false

/-- Identifier of one of two overlapping runs (first click, second click). -/
inductive RunId where
  | A
  | B
deriving DecidableEq, Repr

/-- State of the event loop while two runs of the same attachment overlap:
the pending timer callback of each run (`some i` = a callback that will
execute `sendEventsDispatcher(i, 5)` and then `sendEvents(i+1)`), and the
log of dispatch results so far. -/
structure TwoRunState where
  pendingA : Option ℕ
  pendingB : Option ℕ
  log : List (RunId × Except String StepOutcome)

/-- The timer index the recursive call schedules after a step at index `i`
finished with result `res`: an uncaught exception escapes the callback
before `sendEvents(i+1)` runs, and `sendEvents` stops silently when the
incremented index reaches `maxIterations`. -/
def nextPending (res : Except String StepOutcome) (i : ℕ) : Option ℕ :=
  match res with
  | Except.error _ => none
  | Except.ok _ => if i + 1 = maxIterations then none else some (i + 1)

/-- The event loop fires the pending timer callback of the chosen run:
the callback dispatches its step and reschedules via `sendEvents(i+1)`.
Firing a run with no pending timer changes nothing. Both runs read the
same directive state `st`; each observes its own environment. -/
def fireTimer (plat : Platform) (envAtA envAtB : ℕ → StepEnv) (st : MutState)
    (s : TwoRunState) : RunId → TwoRunState
  | RunId.A =>
    match s.pendingA with
    | none => s
    | some i =>
      { s with
        log := s.log ++ [(RunId.A, stepResult plat envAtA st i)],
        pendingA := nextPending (stepResult plat envAtA st i) i }
  | RunId.B =>
    match s.pendingB with
    | none => s
    | some i =>
      { s with
        log := s.log ++ [(RunId.B, stepResult plat envAtB st i)],
        pendingB := nextPending (stepResult plat envAtB st i) i }

/-- Runs the event loop under an arbitrary interleaving schedule: at each
tick the scheduler fires the pending timer of the indicated run. -/
def runSchedule (plat : Platform) (envAtA envAtB : ℕ → StepEnv)
    (st : MutState) (choices : List RunId) (s : TwoRunState) : TwoRunState :=
  choices.foldl (fireTimer plat envAtA envAtB st) s

/-- Event-loop state right after two trigger clicks: each click ran
`sendEvents(0)`, which scheduled a timer callback for step 0. -/
def initialTwoRuns : TwoRunState :=
  { pendingA := some 0, pendingB := some 0, log := [] }

/-- The results a run still has to log, given its pending timer index. -/
def pendingTrace (plat : Platform) (envAt : ℕ → StepEnv) (st : MutState) :
    Option ℕ → List (Except String StepOutcome)
  | none => []
  | some i =>
    (List.range (maxIterations - i)).map fun k => stepResult plat envAt st (i + k)

/-- A run's pending timer after `n` of its fires (assuming none of its
steps raised an uncaught exception). -/
def pendingAfter : Option ℕ → ℕ → Option ℕ
  | none, _ => none
  | some i, n => if maxIterations ≤ i + n then none else some (i + n)

/-- Projection of the interleaved log onto run A, in order. -/
def logA (log : List (RunId × Except String StepOutcome)) :
    List (Except String StepOutcome) :=
  (log.filter fun p => p.1 == RunId.A).map Prod.snd

/-- Projection of the interleaved log onto run B, in order. -/
def logB (log : List (RunId × Except String StepOutcome)) :
    List (Except String StepOutcome) :=
  (log.filter fun p => p.1 == RunId.B).map Prod.snd

/-- Concrete fixture: a platform exposing both touch constructors. -/
def platTouchW : Platform :=
  { touchDefined := true, touchEventDefined := true }

/-- Concrete fixture: a platform with no `TouchEvent` constructor. -/
def platMouseW : Platform :=
  { touchDefined := false, touchEventDefined := false }

/-- Concrete fixture: a fixed bounding box. -/
def rectW : Rect :=
  { top := 100, left := 20, right := 320 }

/-- Concrete fixture: a steady environment where the API never throws. -/
def envW : ℕ → StepEnv :=
  fun _ => { rect := rectW, now := 7, apiThrows := false }

/-- Concrete fixture: an environment where the API throws at every step. -/
def envThrowW : ℕ → StepEnv :=
  fun _ => { rect := rectW, now := 7, apiThrows := true }

/-- Concrete fixture: a resolved attachment swiping to the left. -/
def stW : MutState :=
  { swipeDirection := SwipeDirection.toLeft, revealButton := true }

/-- Concrete fixture: content with no `ion-item-sliding` node. -/
def inpNoSlidingW : DirectiveInput :=
  { itemSliding := false, itemOptionsList := [{ side := "end" }],
    revealButtonFound := true }

/-- Concrete fixture: content whose trigger marker is absent. -/
def inpNoTriggerW : DirectiveInput :=
  { itemSliding := true, itemOptionsList := [{ side := "start" }],
    revealButtonFound := false }

/-- The event-type string `sendEventsDispatcher` selects at step `i`: the
first entry of the active triple at step 0, the second at step
`maxIterations - 1`, the third at every other step. -/
def stepKind (plat : Platform) (i : ℕ) : String :=
  if i = 0 then (activeEventTypes plat).getD 0 ""
  else if i = maxIterations - 1 then (activeEventTypes plat).getD 1 ""
  else (activeEventTypes plat).getD 2 ""

/-- The record `sendMouseEvent` passes to `initMouseEvent` (bubbling,
cancelable, left button, no modifier keys). -/
def mouseEventData (eventType : String) (x y : ℚ) : MouseEventData :=
  { eventType := eventType, bubbles := true, cancelable := true,
    clientX := x, clientY := y,
    ctrlKey := false, altKey := false, shiftKey := false, metaKey := false,
    button := 0 }

/-- Concrete fixture: the contact point the fixture environment produces. -/
def touchPointW (x y : ℚ) : Touch :=
  { identifier := 7, clientX := x, clientY := y,
    radiusX := 2.5, radiusY := 2.5, rotationAngle := 10, force := 0.5 }

/-- Concrete fixture: a touch-strategy event as the fixture run builds it. -/
def touchEventW (ty : String) (x y : ℚ) : SyntheticEvent :=
  SyntheticEvent.touch
    { eventType := ty, cancelable := true, bubbles := true,
      touches := [touchPointW x y], targetTouches := [],
      changedTouches := [touchPointW x y], shiftKey := true }

/-- Concrete fixture: a dispatched touch-strategy outcome. -/
def touchOutcomeW (ty : String) (x y : ℚ) : StepOutcome :=
  StepOutcome.dispatched (touchEventW ty x y)

/-- Concrete fixture: the outcome list of a full run under `platTouchW`,
`envW` and `stW`. -/
def outsW : List StepOutcome :=
  [touchOutcomeW "touchstart" 320 110,
   touchOutcomeW "touchmove" 270 110,
   touchOutcomeW "touchmove" 220 110,
   touchOutcomeW "touchmove" 170 110,
   touchOutcomeW "touchend" 120 110]

/-- Concrete fixture: a fair alternating schedule for two overlapping
runs, five fires each. -/
def choicesW : List RunId :=
  [RunId.A, RunId.B, RunId.A, RunId.B, RunId.A, RunId.B, RunId.A, RunId.B,
   RunId.A, RunId.B]

/-! ## Helper lemmas -/

/-- `sendEventsDispatcher` never writes the directive's fields. -/
theorem sendEventsDispatcher_state (plat : Platform) (envAt : ℕ → StepEnv)
    (st : MutState) (i m : ℕ) :
    (sendEventsDispatcher plat envAt st i m).2 = st := rfl

/-- One dispatcher step, written through the step observers: the chosen
strategy applied to the step kind and step coordinates. -/
theorem sendEventsDispatcher_eq (plat : Platform) (envAt : ℕ → StepEnv)
    (st : MutState) (i : ℕ) :
    sendEventsDispatcher plat envAt st i maxIterations =
      ((if supportTouchEvent plat then
          Except.ok (sendTouchEvent (envAt i).apiThrows (envAt i).now
            (stepKind plat i) (stepX st envAt i) (stepY envAt i))
        else
          sendMouseEvent (envAt i).apiThrows (stepKind plat i)
            (stepX st envAt i) (stepY envAt i)), st) := by
  simp only [sendEventsDispatcher, stepKind, stepX, stepY, activeEventTypes]
  split_ifs <;> rfl

/-- The run started at the terminal index dispatches nothing. -/
theorem sendEvents_term (plat : Platform) (envAt : ℕ → StepEnv) (st : MutState) :
    sendEvents plat envAt 5 st = some (Except.ok [], st) := rfl

/-- Unfolding of one activation of `sendEvents` below the bound. -/
theorem sendEvents_unfold (plat : Platform) (envAt : ℕ → StepEnv) (st : MutState)
    (index : ℕ) (h : index < maxIterations) :
    sendEvents plat envAt index st =
      match sendEventsDispatcher plat envAt st index maxIterations with
      | (Except.error e, st1) => some (Except.error e, st1)
      | (Except.ok outcome, st1) =>
        match sendEvents plat envAt (index + 1) st1 with
        | none => none
        | some (Except.error e, st2) => some (Except.error e, st2)
        | some (Except.ok rest, st2) => some (Except.ok (outcome :: rest), st2) := by
  have hf : maxIterations + 1 - index = (maxIterations + 1 - (index + 1)) + 1 := by
    omega
  unfold sendEvents
  rw [hf]
  rw [sendEventsAux]
  rw [if_neg (Nat.ne_of_lt h)]

/-- A full run under the touch strategy, fully explicit: five touch
synthesis attempts at the five step kinds and coordinates, whatever the
per-step environment does. -/
theorem sendEvents_zero_touch_eq (plat : Platform) (envAt : ℕ → StepEnv)
    (st : MutState) (hto : supportTouchEvent plat = true) :
    sendEvents plat envAt 0 st =
      some (Except.ok
        [sendTouchEvent (envAt 0).apiThrows (envAt 0).now "touchstart"
           (stepX st envAt 0) (stepY envAt 0),
         sendTouchEvent (envAt 1).apiThrows (envAt 1).now "touchmove"
           (stepX st envAt 1) (stepY envAt 1),
         sendTouchEvent (envAt 2).apiThrows (envAt 2).now "touchmove"
           (stepX st envAt 2) (stepY envAt 2),
         sendTouchEvent (envAt 3).apiThrows (envAt 3).now "touchmove"
           (stepX st envAt 3) (stepY envAt 3),
         sendTouchEvent (envAt 4).apiThrows (envAt 4).now "touchend"
           (stepX st envAt 4) (stepY envAt 4)], st) := by
  rw [sendEvents_unfold plat envAt st 0 (by decide), sendEventsDispatcher_eq,
      if_pos hto]
  dsimp
  rw [sendEvents_unfold plat envAt st 1 (by decide), sendEventsDispatcher_eq,
      if_pos hto]
  dsimp
  rw [sendEvents_unfold plat envAt st 2 (by decide), sendEventsDispatcher_eq,
      if_pos hto]
  dsimp
  rw [sendEvents_unfold plat envAt st 3 (by decide), sendEventsDispatcher_eq,
      if_pos hto]
  dsimp
  rw [sendEvents_unfold plat envAt st 4 (by decide), sendEventsDispatcher_eq,
      if_pos hto]
  dsimp
  rw [sendEvents_term]
  simp only [stepKind, activeEventTypes, hto, maxIterations, if_true]
  rfl

/-- `sendMouseEvent` on a healthy platform, through `mouseEventData`. -/
theorem sendMouseEvent_ok (ty : String) (x y : ℚ) :
    sendMouseEvent false ty x y =
      Except.ok (StepOutcome.dispatched
        (SyntheticEvent.mouse (mouseEventData ty x y))) := rfl

/-- A full run under the mouse strategy on a platform that does not throw:
five dispatched mouse events at the five step kinds and coordinates. -/
theorem sendEvents_zero_mouse_eq (plat : Platform) (envAt : ℕ → StepEnv)
    (st : MutState) (hto : supportTouchEvent plat = false)
    (hok : ∀ i, i < maxIterations → (envAt i).apiThrows = false) :
    sendEvents plat envAt 0 st =
      some (Except.ok
        [StepOutcome.dispatched (SyntheticEvent.mouse
           (mouseEventData "mousedown" (stepX st envAt 0) (stepY envAt 0))),
         StepOutcome.dispatched (SyntheticEvent.mouse
           (mouseEventData "mousemove" (stepX st envAt 1) (stepY envAt 1))),
         StepOutcome.dispatched (SyntheticEvent.mouse
           (mouseEventData "mousemove" (stepX st envAt 2) (stepY envAt 2))),
         StepOutcome.dispatched (SyntheticEvent.mouse
           (mouseEventData "mousemove" (stepX st envAt 3) (stepY envAt 3))),
         StepOutcome.dispatched (SyntheticEvent.mouse
           (mouseEventData "mouseup" (stepX st envAt 4) (stepY envAt 4)))], st) := by
  have hneg : ¬(supportTouchEvent plat = true) := by simp [hto]
  rw [sendEvents_unfold plat envAt st 0 (by decide), sendEventsDispatcher_eq,
      if_neg hneg, hok 0 (by decide), sendMouseEvent_ok]
  dsimp
  rw [sendEvents_unfold plat envAt st 1 (by decide), sendEventsDispatcher_eq,
      if_neg hneg, hok 1 (by decide), sendMouseEvent_ok]
  dsimp
  rw [sendEvents_unfold plat envAt st 2 (by decide), sendEventsDispatcher_eq,
      if_neg hneg, hok 2 (by decide), sendMouseEvent_ok]
  dsimp
  rw [sendEvents_unfold plat envAt st 3 (by decide), sendEventsDispatcher_eq,
      if_neg hneg, hok 3 (by decide), sendMouseEvent_ok]
  dsimp
  rw [sendEvents_unfold plat envAt st 4 (by decide), sendEventsDispatcher_eq,
      if_neg hneg, hok 4 (by decide), sendMouseEvent_ok]
  dsimp
  rw [sendEvents_term]
  simp only [stepKind, activeEventTypes, hto, maxIterations]
  rfl

/-! ## Claims about the attachment resolver -/

/-- C3: the Direction Selector returns `toRight` exactly when the first
options-panel's anchor equals "start"; in every other case — another
value or no options-panel at all — it returns the default `toLeft`. -/
theorem direction_from_anchor (inp : DirectiveInput) :
    ((init inp).st.swipeDirection = SwipeDirection.toRight ↔
      inp.itemOptionsList.head?.map ItemOptions.side = some "start")
    ∧ ((init inp).st.swipeDirection = SwipeDirection.toLeft ↔
      ¬(inp.itemOptionsList.head?.map ItemOptions.side = some "start")) := by
  cases hb : inp.revealButtonFound <;>
    cases hh : inp.itemOptionsList.head? with
    | none => simp [init, hb, hh]
    | some opt =>
      by_cases hs : opt.side = "start" <;> simp [init, hb, hh, hs]

/-- C4: when the slidable container is missing, setup raises the
MissingContainerError, performs no further setup step, and leaves no click
listener behind, so a click on the would-be trigger dispatches nothing. -/
theorem missing_container_aborts_setup (inp : DirectiveInput)
    (h : inp.itemSliding = false) :
    ngAfterViewInit inp =
      Except.error "RevealSlidingDirective: Missing ion-item-sliding node"
    ∧ ∀ plat envAt, clickDispatch inp plat envAt = some (Except.ok []) := by
  have hsc : selfCheck inp =
      Except.error "RevealSlidingDirective: Missing ion-item-sliding node" := by
    simp [selfCheck, h]
  constructor
  · simp [ngAfterViewInit, hsc]
  · intro plat envAt
    simp [clickDispatch, ngAfterViewInit, hsc]

/-- Closed witness for `missing_container_aborts_setup` at the concrete
fixture lacking the container. -/
theorem missing_container_aborts_setup_witness :
    ngAfterViewInit inpNoSlidingW =
      Except.error "RevealSlidingDirective: Missing ion-item-sliding node"
    ∧ ∀ plat envAt, clickDispatch inpNoSlidingW plat envAt = some (Except.ok []) :=
  missing_container_aborts_setup inpNoSlidingW rfl

/-- C7: when no trigger element carries the marker attribute, `init` logs
the MissingTriggerWarning and registers no listener, so the attachment is
inert and a click dispatches nothing. -/
theorem missing_trigger_inert (inp : DirectiveInput)
    (hs : inp.itemSliding = true) (hb : inp.revealButtonFound = false) :
    (init inp).listenerAttached = false
    ∧ (init inp).warnings =
        ["RevealSlidingDirective: appRevealSlidingButton attribute is missed"]
    ∧ ∀ plat envAt, clickDispatch inp plat envAt = some (Except.ok []) := by
  refine ⟨by simp [init, hb], by simp [init, hb], ?_⟩
  intro plat envAt
  simp [clickDispatch, ngAfterViewInit, selfCheck, hs, init, hb]

/-- Closed witness for `missing_trigger_inert` at the concrete fixture
whose trigger marker is absent. -/
theorem missing_trigger_inert_witness :
    (init inpNoTriggerW).listenerAttached = false
    ∧ (init inpNoTriggerW).warnings =
        ["RevealSlidingDirective: appRevealSlidingButton attribute is missed"]
    ∧ ∀ plat envAt, clickDispatch inpNoTriggerW plat envAt = some (Except.ok []) :=
  missing_trigger_inert inpNoTriggerW rfl rfl

/-! ## Claims about the event sequencer -/

/-- C1: a run started by a trigger click (step index 0) dispatches exactly
five synthetic events, one per step index 0..4: the step-0 event uses the
first entry of the active event-kind triple, the step-4 event the second
entry, the steps 1..3 the third entry — kinds in the exact order
[start, move, move, move, end] — and the termination check at step 5 stops
the run with no further dispatch. Holds whenever the platform event API
does not throw during the run. -/
theorem full_run_dispatches_five_kinds (plat : Platform) (envAt : ℕ → StepEnv)
    (st : MutState)
    (hok : ∀ i, i < maxIterations → (envAt i).apiThrows = false) :
    runKinds (sendEvents plat envAt 0 st) =
      some [(activeEventTypes plat).getD 0 "", (activeEventTypes plat).getD 2 "",
            (activeEventTypes plat).getD 2 "", (activeEventTypes plat).getD 2 "",
            (activeEventTypes plat).getD 1 ""]
    ∧ runKinds (sendEvents plat envAt 0 st) =
      some (if supportTouchEvent plat then
              ["touchstart", "touchmove", "touchmove", "touchmove", "touchend"]
            else
              ["mousedown", "mousemove", "mousemove", "mousemove", "mouseup"])
    ∧ runOutcomeCount (sendEvents plat envAt 0 st) = some maxIterations
    ∧ sendEvents plat envAt maxIterations st = some (Except.ok [], st) := by
  cases hsup : supportTouchEvent plat with
  | true =>
    rw [sendEvents_zero_touch_eq plat envAt st hsup]
    refine ⟨?_, ?_, ?_, sendEvents_term plat envAt st⟩ <;>
      simp [runKinds, runOutcomeCount, dispatchedOf, sendTouchEvent,
            hok 0 (by decide), hok 1 (by decide), hok 2 (by decide),
            hok 3 (by decide), hok 4 (by decide),
            SyntheticEvent.eventType, activeEventTypes, hsup, touchEvents,
            maxIterations]
  | false =>
    rw [sendEvents_zero_mouse_eq plat envAt st hsup hok]
    refine ⟨?_, ?_, ?_, sendEvents_term plat envAt st⟩ <;>
      simp [runKinds, runOutcomeCount, dispatchedOf, mouseEventData,
            SyntheticEvent.eventType, activeEventTypes, hsup, mouseEvents,
            maxIterations]

/-- Closed witness for `full_run_dispatches_five_kinds` on a touch-capable
platform with a steady, non-throwing environment. -/
theorem full_run_dispatches_five_kinds_witness :
    runKinds (sendEvents platTouchW envW 0 stW) =
      some [(activeEventTypes platTouchW).getD 0 "",
            (activeEventTypes platTouchW).getD 2 "",
            (activeEventTypes platTouchW).getD 2 "",
            (activeEventTypes platTouchW).getD 2 "",
            (activeEventTypes platTouchW).getD 1 ""]
    ∧ runKinds (sendEvents platTouchW envW 0 stW) =
      some (if supportTouchEvent platTouchW then
              ["touchstart", "touchmove", "touchmove", "touchmove", "touchend"]
            else
              ["mousedown", "mousemove", "mousemove", "mousemove", "mouseup"])
    ∧ runOutcomeCount (sendEvents platTouchW envW 0 stW) = some maxIterations
    ∧ sendEvents platTouchW envW maxIterations stW = some (Except.ok [], stW) :=
  full_run_dispatches_five_kinds platTouchW envW stW (fun _ _ => rfl)

/-- C2: when the bounding box is the same at every step, the vertical
coordinate of all five events is box.top + 10 and the horizontal
coordinate at step i is box.right - i*50 for direction toLeft and
box.left + i*50 for toRight — strictly decreasing, respectively
increasing, by 50 per step. -/
theorem run_coordinates (plat : Platform) (envAt : ℕ → StepEnv)
    (st : MutState) (r : Rect)
    (hrect : ∀ i, (envAt i).rect = r)
    (hok : ∀ i, i < maxIterations → (envAt i).apiThrows = false) :
    runYs (sendEvents plat envAt 0 st) =
      some (List.replicate maxIterations (r.top + 10))
    ∧ runXs (sendEvents plat envAt 0 st) =
      some (if st.swipeDirection = SwipeDirection.toRight then
              [r.left, r.left + 50, r.left + 100, r.left + 150, r.left + 200]
            else
              [r.right, r.right - 50, r.right - 100, r.right - 150, r.right - 200])
    ∧ (st.swipeDirection = SwipeDirection.toLeft →
        List.Chain' (fun a b => b = a - 50 ∧ b < a)
          [r.right, r.right - 50, r.right - 100, r.right - 150, r.right - 200])
    ∧ (st.swipeDirection = SwipeDirection.toRight →
        List.Chain' (fun a b => b = a + 50 ∧ a < b)
          [r.left, r.left + 50, r.left + 100, r.left + 150, r.left + 200]) := by
  have hleft : List.Chain' (fun a b : ℚ => b = a - 50 ∧ b < a)
      [r.right, r.right - 50, r.right - 100, r.right - 150, r.right - 200] :=
    List.Chain'.cons ⟨by ring, by linarith⟩
      (List.Chain'.cons ⟨by ring, by linarith⟩
        (List.Chain'.cons ⟨by ring, by linarith⟩
          (List.Chain'.cons ⟨by ring, by linarith⟩
            (List.chain'_singleton _))))
  have hright : List.Chain' (fun a b : ℚ => b = a + 50 ∧ a < b)
      [r.left, r.left + 50, r.left + 100, r.left + 150, r.left + 200] :=
    List.Chain'.cons ⟨by ring, by linarith⟩
      (List.Chain'.cons ⟨by ring, by linarith⟩
        (List.Chain'.cons ⟨by ring, by linarith⟩
          (List.Chain'.cons ⟨by ring, by linarith⟩
            (List.chain'_singleton _))))
  refine ⟨?_, ?_, fun _ => hleft, fun _ => hright⟩ <;>
    cases hsup : supportTouchEvent plat with
    | true =>
      rw [sendEvents_zero_touch_eq plat envAt st hsup]
      cases hdir : st.swipeDirection <;>
        simp [runXs, runYs, dispatchedOf, sendTouchEvent,
              hok 0 (by decide), hok 1 (by decide), hok 2 (by decide),
              hok 3 (by decide), hok 4 (by decide),
              SyntheticEvent.clientX, SyntheticEvent.clientY,
              stepX, stepY, hrect, hdir, maxIterations] <;>
        norm_num
    | false =>
      rw [sendEvents_zero_mouse_eq plat envAt st hsup hok]
      cases hdir : st.swipeDirection <;>
        simp [runXs, runYs, dispatchedOf, mouseEventData,
              SyntheticEvent.clientX, SyntheticEvent.clientY,
              stepX, stepY, hrect, hdir, maxIterations] <;>
        norm_num

/-- Closed witness for `run_coordinates` on the fixture box, toLeft. -/
theorem run_coordinates_witness :
    runYs (sendEvents platTouchW envW 0 stW) =
      some (List.replicate maxIterations (rectW.top + 10))
    ∧ runXs (sendEvents platTouchW envW 0 stW) =
      some (if stW.swipeDirection = SwipeDirection.toRight then
              [rectW.left, rectW.left + 50, rectW.left + 100, rectW.left + 150,
               rectW.left + 200]
            else
              [rectW.right, rectW.right - 50, rectW.right - 100,
               rectW.right - 150, rectW.right - 200])
    ∧ (stW.swipeDirection = SwipeDirection.toLeft →
        List.Chain' (fun a b => b = a - 50 ∧ b < a)
          [rectW.right, rectW.right - 50, rectW.right - 100, rectW.right - 150,
           rectW.right - 200])
    ∧ (stW.swipeDirection = SwipeDirection.toRight →
        List.Chain' (fun a b => b = a + 50 ∧ a < b)
          [rectW.left, rectW.left + 50, rectW.left + 100, rectW.left + 150,
           rectW.left + 200]) :=
  run_coordinates platTouchW envW stW rectW (fun _ => rfl) (fun _ _ => rfl)

/-- Whatever the index, the event type the dispatcher selects is one of
the three entries of the active triple. -/
theorem stepKind_mem (plat : Platform) (i : ℕ) :
    stepKind plat i ∈ activeEventTypes plat := by
  unfold stepKind activeEventTypes
  split_ifs <;> decide

/-- The sequencer never writes the directive's fields: whatever state it
starts from is the state it finishes with. -/
theorem sendEventsAux_state (plat : Platform) (envAt : ℕ → StepEnv) :
    ∀ fuel index st r,
      sendEventsAux plat envAt fuel index st = some r → r.2 = st := by
  intro fuel
  induction fuel with
  | zero => intro _ _ _ h; simp [sendEventsAux] at h
  | succ f ih =>
    intro index st r h
    rw [sendEventsAux] at h
    by_cases hidx : index = maxIterations
    · rw [if_pos hidx] at h
      simp only [Option.some.injEq] at h
      rw [← h]
    · rw [if_neg hidx] at h
      have hd : sendEventsDispatcher plat envAt st index maxIterations
          = (stepResult plat envAt st index, st) := rfl
      rw [hd] at h
      cases hres : stepResult plat envAt st index with
      | error e =>
        rw [hres] at h
        simp only [Option.some.injEq] at h
        rw [← h]
      | ok o =>
        rw [hres] at h
        dsimp only at h
        cases haux : sendEventsAux plat envAt f (index + 1) st with
        | none => rw [haux] at h; simp at h
        | some p =>
          obtain ⟨res, st2⟩ := p
          have hst2 : st2 = st := ih (index + 1) st (res, st2) haux
          cases res with
          | error e =>
            rw [haux] at h
            simp only [Option.some.injEq] at h
            rw [← h, hst2]
          | ok rest =>
            rw [haux] at h
            simp only [Option.some.injEq] at h
            rw [← h, hst2]

/-- Every event a run dispatches comes from the single strategy selected
by `supportTouchEvent`, with the construction details of that strategy:
touch events carry `shiftKey = true` and empty `targetTouches`, mouse
events carry no modifier keys. -/
theorem sendEventsAux_events (plat : Platform) (envAt : ℕ → StepEnv) :
    ∀ fuel index st outs st2,
      sendEventsAux plat envAt fuel index st = some (Except.ok outs, st2) →
      ∀ e ∈ dispatchedOf outs,
        e.isTouchKind = supportTouchEvent plat
        ∧ e.eventType ∈ activeEventTypes plat
        ∧ (supportTouchEvent plat = true →
            ∃ d, e = SyntheticEvent.touch d ∧ d.shiftKey = true
              ∧ d.targetTouches = [])
        ∧ (supportTouchEvent plat = false →
            ∃ d, e = SyntheticEvent.mouse d ∧ d.ctrlKey = false
              ∧ d.altKey = false ∧ d.shiftKey = false ∧ d.metaKey = false) := by
  intro fuel
  induction fuel with
  | zero => intro _ _ _ _ h; simp [sendEventsAux] at h
  | succ f ih =>
    intro index st outs st2 h
    rw [sendEventsAux] at h
    by_cases hidx : index = maxIterations
    · rw [if_pos hidx] at h
      simp only [Option.some.injEq, Prod.mk.injEq, Except.ok.injEq] at h
      rw [← h.1]
      intro e he
      simp [dispatchedOf] at he
    · rw [if_neg hidx] at h
      rw [sendEventsDispatcher_eq] at h
      by_cases hsup : supportTouchEvent plat = true
      · rw [if_pos hsup] at h
        dsimp only at h
        cases haux : sendEventsAux plat envAt f (index + 1) st with
        | none => rw [haux] at h; simp at h
        | some p =>
          obtain ⟨res, st3⟩ := p
          cases res with
          | error msg => rw [haux] at h; simp at h
          | ok rest =>
            rw [haux] at h
            simp only [Option.some.injEq, Prod.mk.injEq, Except.ok.injEq] at h
            rw [← h.1]
            intro e he
            cases hb : (envAt index).apiThrows with
            | true =>
              rw [hb] at he
              simp only [sendTouchEvent, if_pos rfl] at he
              simp only [dispatchedOf, List.filterMap_cons] at he
              exact ih (index + 1) st rest st3 haux e he
            | false =>
              rw [hb] at he
              simp only [sendTouchEvent, Bool.false_eq_true, if_false] at he
              simp only [dispatchedOf, List.filterMap_cons] at he
              rcases List.mem_cons.mp he with rfl | he2
              · refine ⟨by simp [SyntheticEvent.isTouchKind, hsup], ?_, ?_, ?_⟩
                · exact stepKind_mem plat index
                · intro _
                  exact ⟨_, rfl, rfl, rfl⟩
                · intro hfalse
                  rw [hsup] at hfalse
                  simp at hfalse
              · exact ih (index + 1) st rest st3 haux e he2
      · have hsup2 : supportTouchEvent plat = false := by
          simpa using hsup
        rw [if_neg hsup] at h
        cases hb : (envAt index).apiThrows with
        | true =>
          rw [hb] at h
          simp only [sendMouseEvent, if_pos rfl] at h
          simp at h
        | false =>
          rw [hb] at h
          simp only [sendMouseEvent, Bool.false_eq_true, if_false] at h
          cases haux : sendEventsAux plat envAt f (index + 1) st with
          | none => rw [haux] at h; simp at h
          | some p =>
            obtain ⟨res, st3⟩ := p
            cases res with
            | error msg => rw [haux] at h; simp at h
            | ok rest =>
              rw [haux] at h
              simp only [Option.some.injEq, Prod.mk.injEq, Except.ok.injEq] at h
              rw [← h.1]
              intro e he
              simp only [dispatchedOf, List.filterMap_cons] at he
              rcases List.mem_cons.mp he with rfl | he2
              · refine ⟨by simp [SyntheticEvent.isTouchKind, hsup2], ?_, ?_, ?_⟩
                · exact stepKind_mem plat index
                · intro htrue
                  rw [hsup2] at htrue
                  simp at htrue
                · intro _
                  exact ⟨_, rfl, rfl, rfl, rfl, rfl⟩
              · exact ih (index + 1) st rest st3 haux e he2

/-- C5: a run uses exactly one synthesis strategy: when the platform
exposes the Touch and TouchEvent constructors every dispatched event is
touch-kind (touchstart/touchend/touchmove), otherwise every dispatched
event is mouse-kind (mousedown/mouseup/mousemove); kinds are never mixed
within one run. -/
theorem run_strategy_uniform (plat : Platform) (envAt : ℕ → StepEnv)
    (st : MutState) (outs : List StepOutcome) (st2 : MutState)
    (h : sendEvents plat envAt 0 st = some (Except.ok outs, st2)) :
    ∀ e ∈ dispatchedOf outs,
      e.isTouchKind = supportTouchEvent plat
      ∧ (supportTouchEvent plat = true → e.eventType ∈ touchEvents)
      ∧ (supportTouchEvent plat = false → e.eventType ∈ mouseEvents) := by
  intro e he
  have hmain := sendEventsAux_events plat envAt (maxIterations + 1 - 0) 0 st
    outs st2 h e he
  refine ⟨hmain.1, ?_, ?_⟩
  · intro hs
    have hmem := hmain.2.1
    simp only [activeEventTypes, hs, if_true] at hmem
    exact hmem
  · intro hs
    have hmem := hmain.2.1
    simp only [activeEventTypes, hs, Bool.false_eq_true, if_false] at hmem
    exact hmem

/-- The fixture run evaluates to the fixture outcome list. -/
theorem sendEvents_fixture_eq :
    sendEvents platTouchW envW 0 stW = some (Except.ok outsW, stW) := by
  rw [sendEvents_zero_touch_eq platTouchW envW stW rfl]
  simp only [outsW, touchOutcomeW, touchEventW, touchPointW, sendTouchEvent,
    envW, rectW, stW, stepX, stepY]
  norm_num
  decide

/-- Closed witness for `run_strategy_uniform` at the first dispatched
event of the touch fixture run. -/
theorem run_strategy_uniform_witness :
    (touchEventW "touchstart" 320 110).isTouchKind = supportTouchEvent platTouchW
    ∧ (supportTouchEvent platTouchW = true →
        (touchEventW "touchstart" 320 110).eventType ∈ touchEvents)
    ∧ (supportTouchEvent platTouchW = false →
        (touchEventW "touchstart" 320 110).eventType ∈ mouseEvents) :=
  run_strategy_uniform platTouchW envW stW outsW stW sendEvents_fixture_eq
    (touchEventW "touchstart" 320 110)
    (by simp [outsW, touchOutcomeW, dispatchedOf])

/-- C6: under the touch strategy a platform failure at any step is caught
inside `sendTouchEvent` and only logged: the run still terminates
normally, executes all five steps whatever the failure pattern, and a
step's outcome is the logged error exactly when the platform threw at
that step. -/
theorem touch_failure_recoverable (plat : Platform) (envAt : ℕ → StepEnv)
    (st : MutState) (hto : supportTouchEvent plat = true) :
    runCompletedOk (sendEvents plat envAt 0 st) = true
    ∧ runOutcomeCount (sendEvents plat envAt 0 st) = some maxIterations
    ∧ sendEvents plat envAt 0 st =
        some (Except.ok
          [sendTouchEvent (envAt 0).apiThrows (envAt 0).now "touchstart"
             (stepX st envAt 0) (stepY envAt 0),
           sendTouchEvent (envAt 1).apiThrows (envAt 1).now "touchmove"
             (stepX st envAt 1) (stepY envAt 1),
           sendTouchEvent (envAt 2).apiThrows (envAt 2).now "touchmove"
             (stepX st envAt 2) (stepY envAt 2),
           sendTouchEvent (envAt 3).apiThrows (envAt 3).now "touchmove"
             (stepX st envAt 3) (stepY envAt 3),
           sendTouchEvent (envAt 4).apiThrows (envAt 4).now "touchend"
             (stepX st envAt 4) (stepY envAt 4)], st)
    ∧ (∀ b now ty x y,
        sendTouchEvent b now ty x y = StepOutcome.loggedError ↔ b = true) := by
  have hcore := sendEvents_zero_touch_eq plat envAt st hto
  refine ⟨?_, ?_, hcore, ?_⟩
  · rw [hcore]; rfl
  · rw [hcore]; rfl
  · intro b now ty x y
    cases b <;> simp [sendTouchEvent]

/-- Closed witness for `touch_failure_recoverable`: the environment throws
at every step, yet the run terminates normally with five outcomes. -/
theorem touch_failure_recoverable_witness :
    runCompletedOk (sendEvents platTouchW envThrowW 0 stW) = true
    ∧ runOutcomeCount (sendEvents platTouchW envThrowW 0 stW) = some maxIterations
    ∧ sendEvents platTouchW envThrowW 0 stW =
        some (Except.ok
          [sendTouchEvent (envThrowW 0).apiThrows (envThrowW 0).now "touchstart"
             (stepX stW envThrowW 0) (stepY envThrowW 0),
           sendTouchEvent (envThrowW 1).apiThrows (envThrowW 1).now "touchmove"
             (stepX stW envThrowW 1) (stepY envThrowW 1),
           sendTouchEvent (envThrowW 2).apiThrows (envThrowW 2).now "touchmove"
             (stepX stW envThrowW 2) (stepY envThrowW 2),
           sendTouchEvent (envThrowW 3).apiThrows (envThrowW 3).now "touchmove"
             (stepX stW envThrowW 3) (stepY envThrowW 3),
           sendTouchEvent (envThrowW 4).apiThrows (envThrowW 4).now "touchend"
             (stepX stW envThrowW 4) (stepY envThrowW 4)], stW)
    ∧ (∀ b now ty x y,
        sendTouchEvent b now ty x y = StepOutcome.loggedError ↔ b = true) :=
  touch_failure_recoverable platTouchW envThrowW stW rfl

/-- C8: executing the sequencer and synthesizer never modifies the
attachment's resolved direction or trigger element: the directive state a
run finishes with is the state it started from, so every later run of the
same attachment uses the same direction. -/
theorem run_preserves_attachment_state (plat : Platform) (envAt : ℕ → StepEnv)
    (index : ℕ) (st : MutState) (r : Except String (List StepOutcome) × MutState)
    (h : sendEvents plat envAt index st = some r) :
    r.2 = st
    ∧ ∀ plat2 envAt2 index2,
        sendEvents plat2 envAt2 index2 r.2 = sendEvents plat2 envAt2 index2 st := by
  have h2 : r.2 = st :=
    sendEventsAux_state plat envAt (maxIterations + 1 - index) index st r h
  exact ⟨h2, fun _ _ _ => by rw [h2]⟩

/-- Closed witness for `run_preserves_attachment_state` on a fixture run
whose five steps all log caught failures. -/
theorem run_preserves_attachment_state_witness :
    ((Except.ok [StepOutcome.loggedError, StepOutcome.loggedError,
        StepOutcome.loggedError, StepOutcome.loggedError,
        StepOutcome.loggedError] : Except String (List StepOutcome)), stW).2 = stW
    ∧ ∀ plat2 envAt2 index2,
        sendEvents plat2 envAt2 index2
          ((Except.ok [StepOutcome.loggedError, StepOutcome.loggedError,
              StepOutcome.loggedError, StepOutcome.loggedError,
              StepOutcome.loggedError] : Except String (List StepOutcome)),
            stW).2
          = sendEvents plat2 envAt2 index2 stW :=
  run_preserves_attachment_state platTouchW envThrowW 0 stW _ rfl

/-- C10: every synthetic touch event is constructed with shiftKey = true
and an empty targetTouches list, every synthetic mouse event with all four
modifier keys false; hence under the touch strategy all events of a run
carry an active shift modifier. -/
theorem touch_shift_modifier_detail (plat : Platform) (envAt : ℕ → StepEnv)
    (st : MutState) :
    (∀ now ty x y, sendTouchEvent false now ty x y =
      StepOutcome.dispatched (SyntheticEvent.touch
        { eventType := ty, cancelable := true, bubbles := true,
          touches := [{ identifier := now, clientX := x, clientY := y,
                        radiusX := 2.5, radiusY := 2.5, rotationAngle := 10,
                        force := 0.5 }],
          targetTouches := [],
          changedTouches := [{ identifier := now, clientX := x, clientY := y,
                               radiusX := 2.5, radiusY := 2.5,
                               rotationAngle := 10, force := 0.5 }],
          shiftKey := true }))
    ∧ (∀ ty x y, sendMouseEvent false ty x y =
        Except.ok (StepOutcome.dispatched (SyntheticEvent.mouse
          { eventType := ty, bubbles := true, cancelable := true,
            clientX := x, clientY := y,
            ctrlKey := false, altKey := false, shiftKey := false,
            metaKey := false, button := 0 })))
    ∧ (supportTouchEvent plat = true →
        ∀ outs st2, sendEvents plat envAt 0 st = some (Except.ok outs, st2) →
          ∀ e ∈ dispatchedOf outs,
            ∃ d, e = SyntheticEvent.touch d ∧ d.shiftKey = true
              ∧ d.targetTouches = []) := by
  refine ⟨fun now ty x y => rfl, fun ty x y => rfl, ?_⟩
  intro hs outs st2 h e he
  exact (sendEventsAux_events plat envAt (maxIterations + 1 - 0) 0 st
    outs st2 h e he).2.2.1 hs

/-- Closed witness for `touch_shift_modifier_detail` at the first
dispatched event of the fixture run: it carries the shift modifier and no
target touches. -/
theorem touch_shift_modifier_detail_witness :
    ∃ d, touchEventW "touchstart" 320 110 = SyntheticEvent.touch d
      ∧ d.shiftKey = true ∧ d.targetTouches = [] :=
  (touch_shift_modifier_detail platTouchW envW stW).2.2 rfl outsW stW
    sendEvents_fixture_eq (touchEventW "touchstart" 320 110)
    (by simp [outsW, touchOutcomeW, dispatchedOf])

/-! ## Claims about overlapping runs -/

/-- Log projection distributes over appending. -/
theorem logA_append (l1 l2 : List (RunId × Except String StepOutcome)) :
    logA (l1 ++ l2) = logA l1 ++ logA l2 := by
  simp [logA, List.filter_append]

theorem logB_append (l1 l2 : List (RunId × Except String StepOutcome)) :
    logB (l1 ++ l2) = logB l1 ++ logB l2 := by
  simp [logB, List.filter_append]

theorem logA_single_A (r : Except String StepOutcome) :
    logA [(RunId.A, r)] = [r] := rfl

theorem logA_single_B (r : Except String StepOutcome) :
    logA [(RunId.B, r)] = [] := rfl

theorem logB_single_A (r : Except String StepOutcome) :
    logB [(RunId.A, r)] = [] := rfl

theorem logB_single_B (r : Except String StepOutcome) :
    logB [(RunId.B, r)] = [r] := rfl

/-- Every log entry belongs to exactly one of the two runs. -/
theorem log_length_split (log : List (RunId × Except String StepOutcome)) :
    log.length = (logA log).length + (logB log).length := by
  induction log with
  | nil => rfl
  | cons p rest ih =>
    obtain ⟨c, r⟩ := p
    cases c <;> simp [logA, logB, List.filter_cons] at ih ⊢ <;> omega

/-- A pending run below the bound logs its current step's result and then
has the trace of its rescheduled timer left. -/
theorem pendingTrace_cons (plat : Platform) (envAt : ℕ → StepEnv) (st : MutState)
    (i : ℕ) (hi : i < maxIterations)
    (hok : exceptOk (stepResult plat envAt st i) = true) :
    pendingTrace plat envAt st (some i)
      = stepResult plat envAt st i
        :: pendingTrace plat envAt st (nextPending (stepResult plat envAt st i) i) := by
  cases hres : stepResult plat envAt st i with
  | error e => rw [hres] at hok; simp [exceptOk] at hok
  | ok o =>
    by_cases hi5 : i + 1 = maxIterations
    · have h1 : maxIterations - i = 1 := by omega
      have hnext : nextPending (Except.ok o : Except String StepOutcome) i = none := by
        simp [nextPending, hi5]
      rw [hnext]
      simp only [pendingTrace]
      rw [h1]
      rw [show List.range 1 = [0] from rfl]
      simp [hres]
    · have h1 : maxIterations - i = (maxIterations - (i + 1)) + 1 := by omega
      have hnext : nextPending (Except.ok o : Except String StepOutcome) i
          = some (i + 1) := by
        simp [nextPending, hi5]
      rw [hnext]
      simp only [pendingTrace]
      rw [h1, List.range_succ_eq_map]
      simp only [List.map_cons, List.map_map, Nat.add_zero]
      congr 1
      refine List.map_congr_left ?_
      intro a _
      simp only [Function.comp]
      rw [show i + (a + 1) = i + 1 + a from by omega]


/-- A successful step result is an `ok`. -/
theorem exceptOk_exists (r : Except String StepOutcome)
    (h : exceptOk r = true) : ∃ o, r = Except.ok o := by
  cases r with
  | error e => simp [exceptOk] at h
  | ok o => exact ⟨o, rfl⟩

/-- Zero fires leave a valid pending timer unchanged. -/
theorem pendingAfter_zero (p : Option ℕ)
    (hv : ∀ i, p = some i → i < maxIterations) :
    pendingAfter p 0 = p := by
  cases p with
  | none => rfl
  | some i =>
    have hi := hv i rfl
    simp only [pendingAfter]
    rw [if_neg (by omega)]
    simp

/-- Firing once and then n times equals firing n + 1 times, for a step
that did not raise. -/
theorem pendingAfter_succ (o : StepOutcome) (i n : ℕ) :
    pendingAfter (nextPending (Except.ok o : Except String StepOutcome) i) n
      = pendingAfter (some i) (n + 1) := by
  by_cases hi5 : i + 1 = maxIterations
  · have h1 : nextPending (Except.ok o : Except String StepOutcome) i = none := by
      simp [nextPending, hi5]
    rw [h1]
    have h2 : maxIterations ≤ i + (n + 1) := by omega
    simp only [pendingAfter]
    rw [if_pos h2]
  · have h1 : nextPending (Except.ok o : Except String StepOutcome) i
        = some (i + 1) := by
      simp [nextPending, hi5]
    rw [h1]
    simp only [pendingAfter]
    rw [show i + 1 + n = i + (n + 1) from by omega]

/-- Invariant of the two-run event loop, for every interleaving schedule:
each run's projection of the log extends by exactly the prefix of its own
remaining trace selected by how often the scheduler fired it, and its
pending timer advances accordingly — the other run's fires are invisible
to it. -/
theorem runSchedule_spec (plat : Platform) (envAtA envAtB : ℕ → StepEnv)
    (st : MutState)
    (hokA : ∀ i, i < maxIterations → exceptOk (stepResult plat envAtA st i) = true)
    (hokB : ∀ i, i < maxIterations → exceptOk (stepResult plat envAtB st i) = true) :
    ∀ (choices : List RunId) (s : TwoRunState),
      (∀ i, s.pendingA = some i → i < maxIterations) →
      (∀ i, s.pendingB = some i → i < maxIterations) →
      logA (runSchedule plat envAtA envAtB st choices s).log
        = logA s.log
          ++ (pendingTrace plat envAtA st s.pendingA).take (choices.count RunId.A)
      ∧ logB (runSchedule plat envAtA envAtB st choices s).log
        = logB s.log
          ++ (pendingTrace plat envAtB st s.pendingB).take (choices.count RunId.B)
      ∧ (runSchedule plat envAtA envAtB st choices s).pendingA
        = pendingAfter s.pendingA (choices.count RunId.A)
      ∧ (runSchedule plat envAtA envAtB st choices s).pendingB
        = pendingAfter s.pendingB (choices.count RunId.B) := by
  intro choices
  induction choices with
  | nil =>
    intro s hvA hvB
    refine ⟨?_, ?_, ?_, ?_⟩
    · simp [runSchedule]
    · simp [runSchedule]
    · simpa [runSchedule] using (pendingAfter_zero s.pendingA hvA).symm
    · simpa [runSchedule] using (pendingAfter_zero s.pendingB hvB).symm
  | cons c rest ih =>
    intro s hvA hvB
    have hfold : runSchedule plat envAtA envAtB st (c :: rest) s
        = runSchedule plat envAtA envAtB st rest
            (fireTimer plat envAtA envAtB st s c) := rfl
    rw [hfold]
    cases c with
    | A =>
      have hcA : (RunId.A :: rest).count RunId.A = rest.count RunId.A + 1 :=
        List.count_cons_self _ _
      have hcB : (RunId.A :: rest).count RunId.B = rest.count RunId.B :=
        List.count_cons_of_ne (by decide) _
      rw [hcA, hcB]
      cases hpa : s.pendingA with
      | none =>
        have hfire : fireTimer plat envAtA envAtB st s RunId.A = s := by
          simp [fireTimer, hpa]
        rw [hfire]
        obtain ⟨e1, e2, e3, e4⟩ := ih s hvA hvB
        rw [hpa] at e1 e3
        refine ⟨?_, e2, ?_, e4⟩
        · rw [e1]
          simp [pendingTrace]
        · rw [e3]
          rfl
      | some i =>
        have hvi := hvA i hpa
        have hoki := hokA i hvi
        have hs1log : (fireTimer plat envAtA envAtB st s RunId.A).log
            = s.log ++ [(RunId.A, stepResult plat envAtA st i)] := by
          simp [fireTimer, hpa]
        have hs1pa : (fireTimer plat envAtA envAtB st s RunId.A).pendingA
            = nextPending (stepResult plat envAtA st i) i := by
          simp [fireTimer, hpa]
        have hs1pb : (fireTimer plat envAtA envAtB st s RunId.A).pendingB
            = s.pendingB := by
          simp [fireTimer, hpa]
        have hvA1 : ∀ j, (fireTimer plat envAtA envAtB st s RunId.A).pendingA
            = some j → j < maxIterations := by
          intro j hj
          rw [hs1pa] at hj
          obtain ⟨o, ho⟩ := exceptOk_exists _ hoki
          rw [ho] at hj
          simp only [nextPending] at hj
          by_cases hi5 : i + 1 = maxIterations
          · rw [if_pos hi5] at hj
            cases hj
          · rw [if_neg hi5] at hj
            cases hj
            omega
        have hvB1 : ∀ j, (fireTimer plat envAtA envAtB st s RunId.A).pendingB
            = some j → j < maxIterations := by
          intro j hj
          rw [hs1pb] at hj
          exact hvB j hj
        obtain ⟨e1, e2, e3, e4⟩ := ih _ hvA1 hvB1
        refine ⟨?_, ?_, ?_, ?_⟩
        · rw [e1, hs1log, logA_append, logA_single_A,
             pendingTrace_cons plat envAtA st i hvi hoki, hs1pa,
             List.take_succ_cons]
          simp
        · rw [e2, hs1log, logB_append, logB_single_A, hs1pb]
          simp
        · rw [e3, hs1pa]
          obtain ⟨o, ho⟩ := exceptOk_exists _ hoki
          rw [ho]
          exact pendingAfter_succ o i (rest.count RunId.A)
        · rw [e4, hs1pb]
    | B =>
      have hcA : (RunId.B :: rest).count RunId.A = rest.count RunId.A :=
        List.count_cons_of_ne (by decide) _
      have hcB : (RunId.B :: rest).count RunId.B = rest.count RunId.B + 1 :=
        List.count_cons_self _ _
      rw [hcA, hcB]
      cases hpb : s.pendingB with
      | none =>
        have hfire : fireTimer plat envAtA envAtB st s RunId.B = s := by
          simp [fireTimer, hpb]
        rw [hfire]
        obtain ⟨e1, e2, e3, e4⟩ := ih s hvA hvB
        rw [hpb] at e2 e4
        refine ⟨e1, ?_, e3, ?_⟩
        · rw [e2]
          simp [pendingTrace]
        · rw [e4]
          rfl
      | some i =>
        have hvi := hvB i hpb
        have hoki := hokB i hvi
        have hs1log : (fireTimer plat envAtA envAtB st s RunId.B).log
            = s.log ++ [(RunId.B, stepResult plat envAtB st i)] := by
          simp [fireTimer, hpb]
        have hs1pb : (fireTimer plat envAtA envAtB st s RunId.B).pendingB
            = nextPending (stepResult plat envAtB st i) i := by
          simp [fireTimer, hpb]
        have hs1pa : (fireTimer plat envAtA envAtB st s RunId.B).pendingA
            = s.pendingA := by
          simp [fireTimer, hpb]
        have hvB1 : ∀ j, (fireTimer plat envAtA envAtB st s RunId.B).pendingB
            = some j → j < maxIterations := by
          intro j hj
          rw [hs1pb] at hj
          obtain ⟨o, ho⟩ := exceptOk_exists _ hoki
          rw [ho] at hj
          simp only [nextPending] at hj
          by_cases hi5 : i + 1 = maxIterations
          · rw [if_pos hi5] at hj
            cases hj
          · rw [if_neg hi5] at hj
            cases hj
            omega
        have hvA1 : ∀ j, (fireTimer plat envAtA envAtB st s RunId.B).pendingA
            = some j → j < maxIterations := by
          intro j hj
          rw [hs1pa] at hj
          exact hvA j hj
        obtain ⟨e1, e2, e3, e4⟩ := ih _ hvA1 hvB1
        refine ⟨?_, ?_, ?_, ?_⟩
        · rw [e1, hs1log, logA_append, logA_single_B, hs1pa]
          simp
        · rw [e2, hs1log, logB_append, logB_single_B,
             pendingTrace_cons plat envAtB st i hvi hoki, hs1pb,
             List.take_succ_cons]
          simp
        · rw [e3, hs1pa]
        · rw [e4, hs1pb]
          obtain ⟨o, ho⟩ := exceptOk_exists _ hoki
          rw [ho]
          exact pendingAfter_succ o i (rest.count RunId.B)



/-- The outcome list of a solo run from index 0 is exactly the per-step
trace of the five dispatcher results (when no step raises). -/
theorem sendEvents_trace (plat : Platform) (envAt : ℕ → StepEnv) (st : MutState)
    (hok : ∀ i, i < maxIterations → exceptOk (stepResult plat envAt st i) = true) :
    ∀ outs st2, sendEvents plat envAt 0 st = some (Except.ok outs, st2) →
      (List.range maxIterations).map (stepResult plat envAt st)
        = outs.map Except.ok := by
  intro outs st2 h
  obtain ⟨o0, h0⟩ := exceptOk_exists _ (hok 0 (by decide))
  obtain ⟨o1, h1⟩ := exceptOk_exists _ (hok 1 (by decide))
  obtain ⟨o2, h2⟩ := exceptOk_exists _ (hok 2 (by decide))
  obtain ⟨o3, h3⟩ := exceptOk_exists _ (hok 3 (by decide))
  obtain ⟨o4, h4⟩ := exceptOk_exists _ (hok 4 (by decide))
  rw [sendEvents_unfold plat envAt st 0 (by decide)] at h
  rw [show sendEventsDispatcher plat envAt st 0 maxIterations
      = (stepResult plat envAt st 0, st) from rfl, h0] at h
  dsimp at h
  rw [sendEvents_unfold plat envAt st 1 (by decide)] at h
  rw [show sendEventsDispatcher plat envAt st 1 maxIterations
      = (stepResult plat envAt st 1, st) from rfl, h1] at h
  dsimp at h
  rw [sendEvents_unfold plat envAt st 2 (by decide)] at h
  rw [show sendEventsDispatcher plat envAt st 2 maxIterations
      = (stepResult plat envAt st 2, st) from rfl, h2] at h
  dsimp at h
  rw [sendEvents_unfold plat envAt st 3 (by decide)] at h
  rw [show sendEventsDispatcher plat envAt st 3 maxIterations
      = (stepResult plat envAt st 3, st) from rfl, h3] at h
  dsimp at h
  rw [sendEvents_unfold plat envAt st 4 (by decide)] at h
  rw [show sendEventsDispatcher plat envAt st 4 maxIterations
      = (stepResult plat envAt st 4, st) from rfl, h4] at h
  dsimp at h
  rw [sendEvents_term] at h
  simp only [Option.some.injEq, Prod.mk.injEq, Except.ok.injEq] at h
  rw [← h.1]
  rw [show List.range maxIterations = [0, 1, 2, 3, 4] from rfl]
  simp [h0, h1, h2, h3, h4]

/-- C9: two overlapping runs of the same attachment proceed as fully
independent chains under every interleaving schedule that fires each run
at least five times: both runs complete all five of their own steps, the
combined log holds exactly 10 results with no deduplication or
cancellation, and each run's projection of the interleaved log equals the
event sequence that run produces when executed alone. -/
theorem overlapping_runs_independent (plat : Platform)
    (envAtA envAtB : ℕ → StepEnv) (st : MutState) (choices : List RunId)
    (hokA : ∀ i, i < maxIterations → exceptOk (stepResult plat envAtA st i) = true)
    (hokB : ∀ i, i < maxIterations → exceptOk (stepResult plat envAtB st i) = true)
    (hcA : maxIterations ≤ choices.count RunId.A)
    (hcB : maxIterations ≤ choices.count RunId.B) :
    (runSchedule plat envAtA envAtB st choices initialTwoRuns).log.length = 10
    ∧ logA (runSchedule plat envAtA envAtB st choices initialTwoRuns).log
      = (List.range maxIterations).map (stepResult plat envAtA st)
    ∧ logB (runSchedule plat envAtA envAtB st choices initialTwoRuns).log
      = (List.range maxIterations).map (stepResult plat envAtB st)
    ∧ (runSchedule plat envAtA envAtB st choices initialTwoRuns).pendingA = none
    ∧ (runSchedule plat envAtA envAtB st choices initialTwoRuns).pendingB = none
    ∧ (∀ outs st2, sendEvents plat envAtA 0 st = some (Except.ok outs, st2) →
        logA (runSchedule plat envAtA envAtB st choices initialTwoRuns).log
          = outs.map Except.ok)
    ∧ (∀ outs st2, sendEvents plat envAtB 0 st = some (Except.ok outs, st2) →
        logB (runSchedule plat envAtA envAtB st choices initialTwoRuns).log
          = outs.map Except.ok) := by
  have hv0A : ∀ i, initialTwoRuns.pendingA = some i → i < maxIterations := by
    intro i hi
    simp only [initialTwoRuns, Option.some.injEq] at hi
    rw [← hi]
    decide
  have hv0B : ∀ i, initialTwoRuns.pendingB = some i → i < maxIterations := by
    intro i hi
    simp only [initialTwoRuns, Option.some.injEq] at hi
    rw [← hi]
    decide
  obtain ⟨e1, e2, e3, e4⟩ :=
    runSchedule_spec plat envAtA envAtB st hokA hokB choices initialTwoRuns
      hv0A hv0B
  have htrA : pendingTrace plat envAtA st initialTwoRuns.pendingA
      = (List.range maxIterations).map (stepResult plat envAtA st) := by
    show pendingTrace plat envAtA st (some 0) = _
    simp only [pendingTrace, Nat.sub_zero]
    refine List.map_congr_left ?_
    intro a _
    rw [Nat.zero_add]
  have htrB : pendingTrace plat envAtB st initialTwoRuns.pendingB
      = (List.range maxIterations).map (stepResult plat envAtB st) := by
    show pendingTrace plat envAtB st (some 0) = _
    simp only [pendingTrace, Nat.sub_zero]
    refine List.map_congr_left ?_
    intro a _
    rw [Nat.zero_add]
  have hlenA : ((List.range maxIterations).map
      (stepResult plat envAtA st)).length ≤ choices.count RunId.A := by
    simpa [List.length_map, List.length_range] using hcA
  have hlenB : ((List.range maxIterations).map
      (stepResult plat envAtB st)).length ≤ choices.count RunId.B := by
    simpa [List.length_map, List.length_range] using hcB
  have elogA : logA (runSchedule plat envAtA envAtB st choices initialTwoRuns).log
      = (List.range maxIterations).map (stepResult plat envAtA st) := by
    rw [e1, htrA, List.take_of_length_le hlenA]
    rfl
  have elogB : logB (runSchedule plat envAtA envAtB st choices initialTwoRuns).log
      = (List.range maxIterations).map (stepResult plat envAtB st) := by
    rw [e2, htrB, List.take_of_length_le hlenB]
    rfl
  have epa : (runSchedule plat envAtA envAtB st choices initialTwoRuns).pendingA
      = none := by
    rw [e3]
    show pendingAfter (some 0) (choices.count RunId.A) = none
    simp only [pendingAfter]
    rw [if_pos (by omega)]
  have epb : (runSchedule plat envAtA envAtB st choices initialTwoRuns).pendingB
      = none := by
    rw [e4]
    show pendingAfter (some 0) (choices.count RunId.B) = none
    simp only [pendingAfter]
    rw [if_pos (by omega)]
  refine ⟨?_, elogA, elogB, epa, epb, ?_, ?_⟩
  · rw [log_length_split, elogA, elogB]
    simp [List.length_map, List.length_range]
    decide
  · intro outs st2 h
    rw [elogA]
    exact sendEvents_trace plat envAtA st hokA outs st2 h
  · intro outs st2 h
    rw [elogB]
    exact sendEvents_trace plat envAtB st hokB outs st2 h

/-- Closed witness for `overlapping_runs_independent` on an alternating
ten-tick schedule of two touch-strategy fixture runs. -/
theorem overlapping_runs_independent_witness :
    (runSchedule platTouchW envW envW stW choicesW initialTwoRuns).log.length = 10
    ∧ logA (runSchedule platTouchW envW envW stW choicesW initialTwoRuns).log
      = (List.range maxIterations).map (stepResult platTouchW envW stW)
    ∧ logB (runSchedule platTouchW envW envW stW choicesW initialTwoRuns).log
      = (List.range maxIterations).map (stepResult platTouchW envW stW)
    ∧ (runSchedule platTouchW envW envW stW choicesW initialTwoRuns).pendingA = none
    ∧ (runSchedule platTouchW envW envW stW choicesW initialTwoRuns).pendingB = none
    ∧ (∀ outs st2, sendEvents platTouchW envW 0 stW = some (Except.ok outs, st2) →
        logA (runSchedule platTouchW envW envW stW choicesW initialTwoRuns).log
          = outs.map Except.ok)
    ∧ (∀ outs st2, sendEvents platTouchW envW 0 stW = some (Except.ok outs, st2) →
        logB (runSchedule platTouchW envW envW stW choicesW initialTwoRuns).log
          = outs.map Except.ok) :=
  overlapping_runs_independent platTouchW envW envW stW choicesW
    (by decide) (by decide) (by decide) (by decide)

end RevealSliding
